import Mathlib

/-!
Verification of the escrow integration-test harness (src/src/main.rs).

The harness drives a remote escrow program over RPC.  We shallowly embed
the pure parts of the harness (instruction encoding, account-meta lists,
balance-delta verification predicates, retry/polling control flow) as
executable Lean definitions, with machine integers as Nat reduced mod 2^w
where overflow matters, and settle the specification claims against them.
Remote-environment responses (airdrop acceptance, confirmations, observed
balances) are supplied by explicit environment records.
-/

namespace Escrow

/-! ## Byte-level utilities -/

/-- UTF-8 encoding of a single character as a list of byte values. -/
def utf8Char (c : Char) : List Nat :=
  let n := c.toNat
  if n < 128 then [n]
  else if n < 2048 then [192 + n / 64, 128 + n % 64]
  else if n < 65536 then [224 + n / 4096, 128 + (n / 64) % 64, 128 + n % 64]
  else [240 + n / 262144, 128 + (n / 4096) % 64, 128 + (n / 64) % 64, 128 + n % 64]

/-- UTF-8 encoding of a string as a list of byte values. -/
def utf8Encode (s : String) : List Nat :=
  (s.data.map utf8Char).flatten

/-- Little-endian encoding of a u32 value (4 bytes). -/
def u32le (x : Nat) : List Nat :=
  [x % 256, (x / 256) % 256, (x / 65536) % 256, (x / 16777216) % 256]

/-- Little-endian encoding of a u64 value (8 bytes). -/
def u64le (x : Nat) : List Nat :=
  u32le (x % 4294967296) ++ u32le ((x / 4294967296) % 4294967296)

/-! ## SHA-256 (the cryptographic hash used by the ledger SDK `hash`) -/

/-- Reduce modulo 2^32. -/
def w32 (x : Nat) : Nat := x % 4294967296

/-- Right rotation of a 32-bit word by n bits. -/
def rotr32 (n x : Nat) : Nat :=
  w32 ((x >>> n) + ((x % (2 ^ n)) * 2 ^ (32 - n)))

/-- Bitwise complement of a 32-bit word. -/
def not32 (x : Nat) : Nat := 4294967295 - w32 x

/-- The 64 SHA-256 round constants, written in decimal. -/
def sha256K : List Nat :=
  [1116352408, 1899447441, 3049323471, 3921009573, 961987163,
   1508970993, 2453635748, 2870763221, 3624381080, 310598401,
   607225278, 1426881987, 1925078388, 2162078206, 2614888103,
   3248222580, 3835390401, 4022224774, 264347078, 604807628,
   770255983, 1249150122, 1555081692, 1996064986, 2554220882,
   2821834349, 2952996808, 3210313671, 3336571891, 3584528711,
   113926993, 338241895, 666307205, 773529912, 1294757372,
   1396182291, 1695183700, 1986661051, 2177026350, 2456956037,
   2730485921, 2820302411, 3259730800, 3345764771, 3516065817,
   3600352804, 4094571909, 275423344, 430227734, 506948616,
   659060556, 883997877, 958139571, 1322822218, 1537002063,
   1747873779, 1955562222, 2024104815, 2227730452, 2361852424,
   2428436474, 2756734187, 3204031479, 3329325298]

/-- The 8 SHA-256 initial hash words, written in decimal. -/
def sha256H0 : List Nat :=
  [1779033703, 3144134277, 1013904242, 2773480762,
   1359893119, 2600822924, 528734635, 1541459225]

/-- Message-schedule sigma 0 of SHA-256. -/
def sigmaS0 (x : Nat) : Nat := (rotr32 7 x) ^^^ (rotr32 18 x) ^^^ (x >>> 3)

/-- Message-schedule sigma 1 of SHA-256. -/
def sigmaS1 (x : Nat) : Nat := (rotr32 17 x) ^^^ (rotr32 19 x) ^^^ (x >>> 10)

/-- Compression sigma 0 of SHA-256. -/
def sigmaB0 (x : Nat) : Nat := (rotr32 2 x) ^^^ (rotr32 13 x) ^^^ (rotr32 22 x)

/-- Compression sigma 1 of SHA-256. -/
def sigmaB1 (x : Nat) : Nat := (rotr32 6 x) ^^^ (rotr32 11 x) ^^^ (rotr32 25 x)

/-- Append one word to the message schedule. -/
def schedStep (ws : List Nat) : List Nat :=
  let i := ws.length
  let a := ws.getD (i - 16) 0
  let b := ws.getD (i - 15) 0
  let c := ws.getD (i - 7) 0
  let d := ws.getD (i - 2) 0
  ws ++ [w32 (a + sigmaS0 b + c + sigmaS1 d)]

/-- Extend the 16-word schedule by n further words. -/
def schedExtend : Nat → List Nat → List Nat
  | 0, ws => ws
  | n + 1, ws => schedExtend n (schedStep ws)

/-- One SHA-256 compression round on the 8-word working state. -/
def sha256Round (ki wi : Nat) (st : List Nat) : List Nat :=
  let a := st.getD 0 0
  let b := st.getD 1 0
  let c := st.getD 2 0
  let d := st.getD 3 0
  let e := st.getD 4 0
  let f := st.getD 5 0
  let g := st.getD 6 0
  let h := st.getD 7 0
  let ch := (e &&& f) ^^^ ((not32 e) &&& g)
  let maj := (a &&& b) ^^^ (a &&& c) ^^^ (b &&& c)
  let t1 := w32 (h + sigmaB1 e + ch + ki + wi)
  let t2 := w32 (sigmaB0 a + maj)
  [w32 (t1 + t2), a, b, c, w32 (d + t1), e, f, g]

/-- Run the 64 compression rounds given the paired constants and schedule. -/
def sha256Rounds : List (Nat × Nat) → List Nat → List Nat
  | [], st => st
  | kw :: rest, st => sha256Rounds rest (sha256Round kw.1 kw.2 st)

/-- Interpret 4 bytes as a big-endian 32-bit word. -/
def beWord (b0 b1 b2 b3 : Nat) : Nat :=
  b0 * 16777216 + b1 * 65536 + b2 * 256 + b3

/-- Group a byte list into big-endian 32-bit words. -/
def bytesToWords : List Nat → List Nat
  | b0 :: b1 :: b2 :: b3 :: rest => beWord b0 b1 b2 b3 :: bytesToWords rest
  | _ => []

/-- Process one 64-byte chunk, updating the 8-word hash state. -/
def sha256Chunk (st : List Nat) (chunk : List Nat) : List Nat :=
  let ws := schedExtend 48 (bytesToWords chunk)
  let out := sha256Rounds (sha256K.zip ws) st
  (st.zip out).map (fun p => w32 (p.1 + p.2))

/-- Split a byte list into 64-byte chunks (fuel-bounded). -/
def chunks64 : Nat → List Nat → List (List Nat)
  | 0, _ => []
  | _, [] => []
  | fuel + 1, l => l.take 64 :: chunks64 fuel (l.drop 64)

/-- SHA-256 padding: 0x80, zeros, then the 64-bit big-endian bit length. -/
def sha256Pad (msg : List Nat) : List Nat :=
  let n := msg.length
  let zeros := (64 - ((n + 9) % 64)) % 64
  let bitLen := 8 * n
  msg ++ [128] ++ List.replicate zeros 0 ++
    [(bitLen / 2 ^ 56) % 256, (bitLen / 2 ^ 48) % 256, (bitLen / 2 ^ 40) % 256,
     (bitLen / 2 ^ 32) % 256, (bitLen / 2 ^ 24) % 256, (bitLen / 2 ^ 16) % 256,
     (bitLen / 2 ^ 8) % 256, bitLen % 256]

/-- Serialize the 8-word state as 32 big-endian bytes. -/
def wordsToBytes : List Nat → List Nat
  | [] => []
  | w :: rest =>
    [(w / 16777216) % 256, (w / 65536) % 256, (w / 256) % 256, w % 256] ++ wordsToBytes rest

/-- SHA-256 of a byte list, as 32 bytes. -/
def sha256 (msg : List Nat) : List Nat :=
  let padded := sha256Pad msg
  wordsToBytes ((chunks64 (padded.length) padded).foldl sha256Chunk sha256H0)

/-! ## Borsh serialization of the argument structs (src/src/main.rs lines 24-38) -/

/-- Borsh serialization of a string: u32 little-endian byte length, then bytes. -/
def borshString (s : String) : List Nat :=
  u32le (utf8Encode s).length ++ utf8Encode s

/-- Arguments of start_subscription (struct StartSubscriptionArgs). -/
structure StartSubscriptionArgs where
  subscription_id : String
  validation_threshold : Nat
deriving DecidableEq, Repr

/-- Borsh serialization of StartSubscriptionArgs (fields in declaration order). -/
def StartSubscriptionArgs.try_to_vec (a : StartSubscriptionArgs) : List Nat :=
  borshString a.subscription_id ++ u64le a.validation_threshold

/-- Arguments of make_payment (struct MakePaymentArgs). -/
structure MakePaymentArgs where
  amount : Nat
deriving DecidableEq, Repr

/-- Borsh serialization of MakePaymentArgs. -/
def MakePaymentArgs.try_to_vec (a : MakePaymentArgs) : List Nat :=
  u64le a.amount

/-- Arguments of withdraw_funds (struct WithdrawFundsArgs). -/
structure WithdrawFundsArgs where
  validation_data : Nat
deriving DecidableEq, Repr

/-- Borsh serialization of WithdrawFundsArgs. -/
def WithdrawFundsArgs.try_to_vec (a : WithdrawFundsArgs) : List Nat :=
  u64le a.validation_data

/-! ## Instruction sighash (src/src/main.rs lines 52-58) -/

/-- The 8-byte Anchor method selector: first 8 bytes of
sha256 of the UTF-8 string "global:" followed by the method name. -/
def get_instruction_sighash (name : String) : List Nat :=
  (sha256 (utf8Encode ("global:" ++ name))).take 8

/-! ## Constants (src/src/main.rs lines 16-22) -/

/-- One SOL in lamports. -/
def LAMPORTS_PER_SOL : Nat := 1000000000

/-- Default validation threshold passed to start_subscription. -/
def DEFAULT_VALIDATION_THRESHOLD : Nat := 1000

/-- Initial airdrop amount for the buyer (10 SOL). -/
def BUYER_INITIAL_BALANCE : Nat := 10 * LAMPORTS_PER_SOL

/-- Initial airdrop amount for the seller (1 SOL). -/
def SELLER_INITIAL_BALANCE : Nat := 1 * LAMPORTS_PER_SOL

/-! ## Account metas and instructions

Addresses (Pubkey values) are modelled as byte lists.  AccountMeta.new
marks an account writable, AccountMeta.new_readonly read-only, as in the
ledger SDK. -/

/-- A public address, modelled as its 32-byte value. -/
abbrev Pubkey := List Nat

/-- One account reference of an instruction: address, signer flag, writable flag. -/
structure AccountMeta where
  pubkey : Pubkey
  is_signer : Bool
  is_writable : Bool
deriving DecidableEq, Repr

/-- A writable account reference. -/
def AccountMeta.new (pk : Pubkey) (signer : Bool) : AccountMeta :=
  ⟨pk, signer, true⟩

/-- A read-only account reference. -/
def AccountMeta.new_readonly (pk : Pubkey) (signer : Bool) : AccountMeta :=
  ⟨pk, signer, false⟩

/-- The system program address (32 zero bytes). -/
def system_program_id : Pubkey := List.replicate 32 0

/-- One remote invocation: program address, account references, data payload. -/
structure Instruction where
  program_id : Pubkey
  accounts : List AccountMeta
  data : List Nat
deriving DecidableEq, Repr

/-- Data payload built in test_start_subscription (lines 255-263):
selector then Borsh-serialized args. -/
def start_subscription_data (args : StartSubscriptionArgs) : List Nat :=
  get_instruction_sighash "start_subscription" ++ args.try_to_vec

/-- Instruction built in test_start_subscription (lines 265-274). -/
def start_subscription_instruction (program_id : Pubkey) (subscription_pda buyer seller : Pubkey)
    (args : StartSubscriptionArgs) : Instruction :=
  { program_id := program_id
  , accounts :=
      [AccountMeta.new subscription_pda false,
       AccountMeta.new buyer true,
       AccountMeta.new_readonly seller false,
       AccountMeta.new_readonly system_program_id false]
  , data := start_subscription_data args }

/-- Data payload built for make_payment in test_make_first_five_payments
(lines 324-331): selector then Borsh-serialized args. -/
def make_payment_data (args : MakePaymentArgs) : List Nat :=
  get_instruction_sighash "make_payment" ++ args.try_to_vec

/-- Instruction built in test_make_first_five_payments (lines 333-342),
the escrowed-payment site. -/
def escrow_payment_instruction (program_id : Pubkey) (subscription_pda buyer seller : Pubkey)
    (args : MakePaymentArgs) : Instruction :=
  { program_id := program_id
  , accounts :=
      [AccountMeta.new subscription_pda false,
       AccountMeta.new buyer true,
       AccountMeta.new seller false,
       AccountMeta.new_readonly system_program_id false]
  , data := get_instruction_sighash "make_payment" ++ args.try_to_vec }

/-- Instruction built in test_make_direct_payments (lines 450-468),
the direct-payment site, transcribed separately from its own lines. -/
def direct_payment_instruction (program_id : Pubkey) (subscription_pda buyer seller : Pubkey)
    (args : MakePaymentArgs) : Instruction :=
  { program_id := program_id
  , accounts :=
      [AccountMeta.new subscription_pda false,
       AccountMeta.new buyer true,
       AccountMeta.new seller false,
       AccountMeta.new_readonly system_program_id false]
  , data := get_instruction_sighash "make_payment" ++ args.try_to_vec }

/-- Instruction built in test_cancel_subscription (lines 557-570):
selector only, no arguments. -/
def cancel_subscription_instruction (program_id : Pubkey) (subscription_pda buyer seller : Pubkey) :
    Instruction :=
  { program_id := program_id
  , accounts :=
      [AccountMeta.new subscription_pda false,
       AccountMeta.new buyer true,
       AccountMeta.new seller false,
       AccountMeta.new_readonly system_program_id false]
  , data := get_instruction_sighash "cancel_subscription" }

/-- Data payload built for withdraw_funds in test_failed_withdrawal
(lines 655-662). -/
def withdraw_funds_data (args : WithdrawFundsArgs) : List Nat :=
  get_instruction_sighash "withdraw_funds" ++ args.try_to_vec

/-- Instruction built in test_failed_withdrawal (lines 664-673). -/
def withdraw_funds_instruction (program_id : Pubkey) (subscription_pda buyer seller : Pubkey)
    (args : WithdrawFundsArgs) : Instruction :=
  { program_id := program_id
  , accounts :=
      [AccountMeta.new subscription_pda false,
       AccountMeta.new buyer false,
       AccountMeta.new seller true,
       AccountMeta.new_readonly system_program_id false]
  , data := withdraw_funds_data args }

/-! ## Remote account view and balance snapshots -/

/-- The deserialized escrow account state (struct EscrowAccount, lines 40-50).
payment_count is a u8 on the wire, total_amount and validation_threshold u64. -/
structure EscrowAccount where
  seller : Pubkey
  buyer : Pubkey
  subscription_id : String
  payment_count : Nat
  total_amount : Nat
  is_active : Bool
  validation_threshold : Nat
deriving DecidableEq, Repr

/-- A three-party balance snapshot (struct Balance, lines 67-72). -/
structure Balance where
  seller : Nat
  escrow : Nat
  buyer : Nat
deriving DecidableEq, Repr

/-! ## The balance sampler (TestContext::get_balances, lines 103-135)

The struct TestContext (lines 60-65) holds the RPC client handle, the
program id and the two keypairs; a keypair is modelled by its public
address plus an opaque secret. -/

/-- A signing keypair, modelled as public address plus opaque secret. -/
structure Keypair where
  pubkey : Pubkey
  secret : Nat
deriving DecidableEq, Repr

/-- The harness context (struct TestContext): RPC client handle (opaque),
program id, buyer and seller keypairs. -/
structure TestContext where
  client : Nat
  program_id : Pubkey
  buyer : Keypair
  seller : Keypair
deriving DecidableEq, Repr

/-- get_balances: reads the seller balance, then the buyer balance, then the
escrow-account balance (lines 109-111), and returns the Balance record.
The second component is the trace of addresses read, in issue order. -/
def get_balances (env : Pubkey → Nat) (ctx : TestContext) (subscription_pda : Pubkey) :
    Balance × List Pubkey :=
  let seller_balance := env ctx.seller.pubkey
  let buyer_balance := env ctx.buyer.pubkey
  let escrow_balance := env subscription_pda
  (⟨seller_balance, escrow_balance, buyer_balance⟩,
   [ctx.seller.pubkey, ctx.buyer.pubkey, subscription_pda])

/-! ## Scenario verification predicates

Each predicate is the success condition of the corresponding run of
balance-delta checks in the source, transcribed with Nat subtraction
(which saturates, as does u64 saturating_sub). -/

/-- Per-payment check of test_make_first_five_payments (lines 357-387):
the absolute escrow-balance delta must lie in the 10000-lamport band around
payment_amount, and the seller balance must be exactly unchanged. -/
def escrow_payment_check (pre post : Balance) (payment_amount : Nat) : Bool :=
  let escrow_difference :=
    if post.escrow > pre.escrow then post.escrow - pre.escrow
    else pre.escrow - post.escrow
  let acceptable_range := 10000
  if escrow_difference > payment_amount + acceptable_range
      || escrow_difference < payment_amount - acceptable_range then
    false
  else if post.seller != pre.seller then
    false
  else
    true

/-- Final check of test_make_first_five_payments (lines 402-421):
payment_count = 5 and total_amount = payment_amount * 5 on the refetched
account. -/
def first_five_final_check (acct : EscrowAccount) (payment_amount : Nat) : Bool :=
  acct.payment_count == 5 && acct.total_amount == payment_amount * 5

/-- Per-payment check of test_make_direct_payments (lines 487-516):
the absolute seller-balance delta must lie in the 10000-lamport band around
payment_amount, and the escrow balance must be exactly unchanged. -/
def direct_payment_check (pre post : Balance) (payment_amount : Nat) : Bool :=
  let seller_difference :=
    if post.seller > pre.seller then post.seller - pre.seller
    else pre.seller - post.seller
  let acceptable_range := 10000
  if seller_difference > payment_amount + acceptable_range
      || seller_difference < payment_amount - acceptable_range then
    false
  else if post.escrow != pre.escrow then
    false
  else
    true

/-- Final check of test_make_direct_payments (lines 531-539): the refetched
account must show payment_count = 7. -/
def direct_payments_final_check (acct : EscrowAccount) : Bool :=
  acct.payment_count == 7

/-- Check of test_failed_withdrawal (lines 628-739): the absolute buyer-balance
delta must lie within LAMPORTS_PER_SOL / 100 of 5 SOL plus the rent-exemption
reserve, the absolute seller-balance delta must be at most
LAMPORTS_PER_SOL / 100, and the escrow post-balance must be exactly 0. -/
def failed_withdrawal_check (pre post : Balance) (rent_exemption : Nat) : Bool :=
  let expected_escrow_total := LAMPORTS_PER_SOL * 5
  let expected_buyer_increase := expected_escrow_total + rent_exemption
  let buyer_difference :=
    if post.buyer > pre.buyer then post.buyer - pre.buyer
    else pre.buyer - post.buyer
  let acceptable_range := LAMPORTS_PER_SOL / 100
  if buyer_difference > expected_buyer_increase + acceptable_range
      || buyer_difference < expected_buyer_increase - acceptable_range then
    false
  else
    let seller_difference :=
      if pre.seller > post.seller then pre.seller - post.seller
      else post.seller - pre.seller
    let max_expected_fee := LAMPORTS_PER_SOL / 100
    if !(seller_difference ≤ max_expected_fee) then
      false
    else
      post.escrow == 0

/-! ## The funding controller
(TestContext::request_airdrop_with_confirmation, lines 137-173)

The remote RPC responses are supplied by an environment: for attempt a,
airdropAccept a says whether request_airdrop returns Ok; for attempt a and
poll p, confirmResp a p is the (fallible) confirm_transaction response and
balanceResp a p the (fallible) get_balance response.  The trace records the
airdrop requests, confirmation polls, balance reads and sleeps the control
flow performs, in order. -/

/-- Environment of remote responses for one funding run. -/
structure AirdropEnv where
  airdropAccept : Nat → Bool
  confirmResp : Nat → Nat → Except String Bool
  balanceResp : Nat → Nat → Except String Nat

/-- One observable event of the funding control flow. -/
inductive Ev where
  | req : Nat → Ev
  | poll : Nat → Nat → Ev
  | balRead : Nat → Nat → Ev
  | sleepMs : Nat → Ev
deriving DecidableEq, Repr

/-- Whether an event is an airdrop request. -/
def Ev.isReq : Ev → Bool
  | .req _ => true
  | _ => false

/-- Whether an event is a confirmation poll of attempt a. -/
def Ev.isPollOf (a : Nat) : Ev → Bool
  | .poll a' _ => a' == a
  | _ => false

/-- The confirmation-poll loop of one accepted airdrop attempt
(lines 148-161): up to fuel polls starting at index p; on a positive
confirmation the balance is re-checked against amount; a transport error
from confirm or get_balance propagates; otherwise sleep 500 ms and poll
again.  Returns the success flag and the event trace. -/
def pollLoop (env : AirdropEnv) (amount a : Nat) : Nat → Nat → Except String Bool × List Ev
  | 0, _ => (.ok false, [])
  | fuel + 1, p =>
    match env.confirmResp a p with
    | .error e => (.error e, [.poll a p])
    | .ok true =>
      match env.balanceResp a p with
      | .error e => (.error e, [.poll a p, .balRead a p])
      | .ok b =>
        if amount ≤ b then (.ok true, [.poll a p, .balRead a p])
        else
          let rest := pollLoop env amount a fuel (p + 1)
          (rest.1, .poll a p :: .balRead a p :: .sleepMs 500 :: rest.2)
    | .ok false =>
      let rest := pollLoop env amount a fuel (p + 1)
      (rest.1, .poll a p :: .sleepMs 500 :: rest.2)

/-- The attempt loop (lines 142-170): up to fuel airdrop attempts starting at
index a; a rejected request is logged and retried after a 1 s sleep; an
accepted request runs 32 confirmation polls, and if they are exhausted the
attempt is abandoned, with a 1 s sleep before the next one; exhausting all
attempts yields the fatal error of line 172. -/
def attemptLoop (env : AirdropEnv) (amount : Nat) : Nat → Nat → Except String Unit × List Ev
  | 0, _ => (.error "Failed to complete airdrop after multiple attempts", [])
  | fuel + 1, a =>
    if env.airdropAccept a then
      match pollLoop env amount a 32 0 with
      | (.error e, t) => (.error e, .req a :: t)
      | (.ok true, t) => (.ok (), .req a :: t)
      | (.ok false, t) =>
        let rest := attemptLoop env amount fuel (a + 1)
        (rest.1, .req a :: (t ++ .sleepMs 1000 :: rest.2))
    else
      let rest := attemptLoop env amount fuel (a + 1)
      (rest.1, .req a :: .sleepMs 1000 :: rest.2)

/-- request_airdrop_with_confirmation: 3 attempts starting at attempt 0. -/
def request_airdrop_with_confirmation (env : AirdropEnv) (amount : Nat) :
    Except String Unit × List Ev :=
  attemptLoop env amount 3 0

/-! ## Setup (TestContext::setup, lines 175-207) -/

/-- Environment for one setup run: the buyer and seller funding environments
and the two final get_balance responses (lines 189-190). -/
structure SetupEnv where
  buyerAirdrop : AirdropEnv
  sellerAirdrop : AirdropEnv
  buyerFinalBalance : Except String Nat
  sellerFinalBalance : Except String Nat

/-- setup: fund the buyer with BUYER_INITIAL_BALANCE, fund the seller with
SELLER_INITIAL_BALANCE, then read both balances and fail unless both are at
least LAMPORTS_PER_SOL (lines 175-207). -/
def setup (env : SetupEnv) : Except String Unit :=
  match (request_airdrop_with_confirmation env.buyerAirdrop BUYER_INITIAL_BALANCE).1 with
  | .error e => .error e
  | .ok _ =>
    match (request_airdrop_with_confirmation env.sellerAirdrop SELLER_INITIAL_BALANCE).1 with
    | .error e => .error e
    | .ok _ =>
      match env.buyerFinalBalance with
      | .error e => .error e
      | .ok buyer_balance =>
        match env.sellerFinalBalance with
        | .error e => .error e
        | .ok seller_balance =>
          if buyer_balance < LAMPORTS_PER_SOL || seller_balance < LAMPORTS_PER_SOL then
            .error "Failed to fund accounts with sufficient SOL"
          else
            .ok ()

/-! ## The address deriver (TestContext::find_subscription_pda, lines 91-101) -/

/-- Modelled from the spec: the underlying program-derived-address routine
(Pubkey::find_program_address) lives in the external ledger SDK, not in this
repository.  Per the spec (section 4.1) it "deterministically folds a fixed
domain-separation tag with the three inputs into one canonical account
address plus a disambiguation byte" and has no side effects.  We model it as
the SHA-256 digest of the concatenated seeds, the program id and the fixed
marker string, together with the highest disambiguation byte. -/
def find_program_address (seeds : List (List Nat)) (program_id : Pubkey) : Pubkey × Nat :=
  (sha256 (seeds.flatten ++ program_id ++ utf8Encode "ProgramDerivedAddress"), 255)

/-- find_subscription_pda: derives the escrow account address from the fixed
tag "escrow", the buyer public address, the seller public address and the
subscription id (lines 91-101). -/
def find_subscription_pda (ctx : TestContext) (subscription_id : String) : Pubkey × Nat :=
  find_program_address
    [utf8Encode "escrow", ctx.buyer.pubkey, ctx.seller.pubkey, utf8Encode subscription_id]
    ctx.program_id

/-! # Theorems for the claims -/

set_option maxRecDepth 100000

/-- C6: for every method name, the selector is the first 8 bytes of SHA-256
of the UTF-8 string "global:" plus the method name, every encoded data
payload is exactly that selector followed by the Borsh-serialized argument
struct, and the four selectors have the expected concrete byte values. -/
theorem C6_selector_and_payload :
    (∀ name : String,
      get_instruction_sighash name = (sha256 (utf8Encode ("global:" ++ name))).take 8)
    ∧ (∀ (pid pda b s : Pubkey) (args : StartSubscriptionArgs),
        (start_subscription_instruction pid pda b s args).data =
          get_instruction_sighash "start_subscription" ++ args.try_to_vec)
    ∧ (∀ (pid pda b s : Pubkey) (args : MakePaymentArgs),
        (escrow_payment_instruction pid pda b s args).data =
          get_instruction_sighash "make_payment" ++ args.try_to_vec)
    ∧ (∀ (pid pda b s : Pubkey) (args : MakePaymentArgs),
        (direct_payment_instruction pid pda b s args).data =
          get_instruction_sighash "make_payment" ++ args.try_to_vec)
    ∧ (∀ pid pda b s : Pubkey,
        (cancel_subscription_instruction pid pda b s).data =
          get_instruction_sighash "cancel_subscription")
    ∧ (∀ (pid pda b s : Pubkey) (args : WithdrawFundsArgs),
        (withdraw_funds_instruction pid pda b s args).data =
          get_instruction_sighash "withdraw_funds" ++ args.try_to_vec)
    ∧ get_instruction_sighash "start_subscription" = [95, 237, 61, 140, 51, 173, 218, 39]
    ∧ get_instruction_sighash "make_payment" = [19, 128, 153, 121, 221, 192, 91, 53]
    ∧ get_instruction_sighash "cancel_subscription" = [60, 139, 189, 242, 191, 208, 143, 18]
    ∧ get_instruction_sighash "withdraw_funds" = [241, 36, 29, 111, 208, 31, 104, 217] :=
  ⟨fun _ => rfl, fun _ _ _ _ _ => rfl, fun _ _ _ _ _ => rfl, fun _ _ _ _ _ => rfl,
   fun _ _ _ _ => rfl, fun _ _ _ _ _ => rfl,
   by decide, by decide, by decide, by decide⟩

/-- C7: the account-reference lists of the four operations have exactly the
specified order, writability and signer flags, and the signer role inverts
from the buyer (payment-phase calls) to the seller (withdraw). -/
theorem C7_account_reference_lists :
    ∀ pid pda b s : Pubkey,
      (∀ args : StartSubscriptionArgs,
        (start_subscription_instruction pid pda b s args).accounts =
          [⟨pda, false, true⟩, ⟨b, true, true⟩, ⟨s, false, false⟩,
           ⟨system_program_id, false, false⟩])
      ∧ (∀ args : MakePaymentArgs,
          (escrow_payment_instruction pid pda b s args).accounts =
            [⟨pda, false, true⟩, ⟨b, true, true⟩, ⟨s, false, true⟩,
             ⟨system_program_id, false, false⟩])
      ∧ ((cancel_subscription_instruction pid pda b s).accounts =
          [⟨pda, false, true⟩, ⟨b, true, true⟩, ⟨s, false, true⟩,
           ⟨system_program_id, false, false⟩])
      ∧ (∀ args : WithdrawFundsArgs,
          (withdraw_funds_instruction pid pda b s args).accounts =
            [⟨pda, false, true⟩, ⟨b, false, true⟩, ⟨s, true, true⟩,
             ⟨system_program_id, false, false⟩])
      ∧ (∀ (pargs : MakePaymentArgs) (wargs : WithdrawFundsArgs),
          ((escrow_payment_instruction pid pda b s pargs).accounts.map
              AccountMeta.is_signer = [false, true, false, false])
          ∧ ((withdraw_funds_instruction pid pda b s wargs).accounts.map
              AccountMeta.is_signer = [false, false, true, false])) :=
  fun _ _ _ _ =>
    ⟨fun _ => rfl, fun _ => rfl, rfl, fun _ => rfl, fun _ _ => ⟨rfl, rfl⟩⟩

/-- C10: for equal amounts, the direct-payment site and the escrowed-payment
site build identical instructions (same program id, same selector and
serialized amount, same account references and flags); the post-state check
predicates of the two scenarios, however, differ. -/
theorem C10_direct_payment_same_wire_call :
    (∀ (pid pda b s : Pubkey) (args : MakePaymentArgs),
      direct_payment_instruction pid pda b s args = escrow_payment_instruction pid pda b s args)
    ∧ (∃ pre post : Balance,
        escrow_payment_check pre post LAMPORTS_PER_SOL = true
        ∧ direct_payment_check pre post LAMPORTS_PER_SOL = false) :=
  ⟨fun _ _ _ _ _ => rfl,
   ⟨⟨2000000000, 0, 10000000000⟩, ⟨2000000000, 1000000000, 9000000000⟩,
    by decide, by decide⟩⟩

/-- C4: the per-payment verification of the five-escrowed-payments scenario
succeeds exactly when the absolute escrow-balance delta lies in the
10000-lamport band around 1 SOL and the seller balance is exactly unchanged;
the final verification succeeds exactly when payment_count = 5 and
total_amount = 5 SOL. -/
theorem C4_five_payments_verification :
    (∀ pre post : Balance,
      escrow_payment_check pre post LAMPORTS_PER_SOL = true ↔
        (LAMPORTS_PER_SOL - 10000 ≤ ((post.escrow : Int) - (pre.escrow : Int)).natAbs
          ∧ ((post.escrow : Int) - (pre.escrow : Int)).natAbs ≤ LAMPORTS_PER_SOL + 10000
          ∧ post.seller = pre.seller))
    ∧ (∀ acct : EscrowAccount,
        first_five_final_check acct LAMPORTS_PER_SOL = true ↔
          (acct.payment_count = 5 ∧ acct.total_amount = 5 * LAMPORTS_PER_SOL)) := by
  constructor
  · intro pre post
    simp only [escrow_payment_check, LAMPORTS_PER_SOL, Bool.or_eq_true, decide_eq_true_eq,
      bne_iff_ne, ne_eq, gt_iff_lt]
    split <;> split <;> simp_all <;> omega
  · intro acct
    simp only [first_five_final_check, LAMPORTS_PER_SOL, Bool.and_eq_true, beq_iff_eq]

/-- C5: the rejected-withdrawal verification succeeds exactly when the
absolute buyer-balance delta is within LAMPORTS_PER_SOL / 100 of the
escrowed 5 SOL plus the rent-exemption reserve, the absolute seller-balance
delta is at most LAMPORTS_PER_SOL / 100, and the escrow post-balance is
exactly 0. -/
theorem C5_failed_withdrawal_verification :
    ∀ (pre post : Balance) (rent_exemption : Nat),
      failed_withdrawal_check pre post rent_exemption = true ↔
        ((5 * LAMPORTS_PER_SOL + rent_exemption) - LAMPORTS_PER_SOL / 100
            ≤ ((post.buyer : Int) - (pre.buyer : Int)).natAbs
          ∧ ((post.buyer : Int) - (pre.buyer : Int)).natAbs
            ≤ (5 * LAMPORTS_PER_SOL + rent_exemption) + LAMPORTS_PER_SOL / 100
          ∧ ((post.seller : Int) - (pre.seller : Int)).natAbs ≤ LAMPORTS_PER_SOL / 100
          ∧ post.escrow = 0) := by
  intro pre post rent_exemption
  simp only [failed_withdrawal_check, LAMPORTS_PER_SOL, Bool.or_eq_true, decide_eq_true_eq,
    Bool.not_eq_true', decide_eq_false_iff_not, not_le, gt_iff_lt, beq_iff_eq]
  split_ifs <;> simp_all <;> omega

/-- C2 counterexample: with the seller address [1], the buyer address [2] and
the escrow account address [3], the read trace of get_balances is
[[1], [2], [3]] (seller, buyer, escrow), not [[1], [3], [2]]
(seller, escrow, buyer) as the claim states. -/
theorem C2_counterexample :
    (get_balances (fun _ => 0) ⟨0, [9], ⟨[2], 0⟩, ⟨[1], 0⟩⟩ [3]).2 ≠ [[1], [3], [2]]
    ∧ (get_balances (fun _ => 0) ⟨0, [9], ⟨[2], 0⟩, ⟨[1], 0⟩⟩ [3]).2 = [[1], [2], [3]] := by
  constructor
  · decide
  · rfl

/-- C2 amended: get_balances issues its three balance reads in the fixed
order seller first, then the buyer, then the escrow account, and returns the
snapshot holding exactly the three fetched values. -/
theorem C2_read_order :
    ∀ (env : Pubkey → Nat) (ctx : TestContext) (subscription_pda : Pubkey),
      (get_balances env ctx subscription_pda).2 =
        [ctx.seller.pubkey, ctx.buyer.pubkey, subscription_pda]
      ∧ (get_balances env ctx subscription_pda).1 =
          ⟨env ctx.seller.pubkey, env subscription_pda, env ctx.buyer.pubkey⟩ :=
  fun _ _ _ => ⟨rfl, rfl⟩

/-- C1 counterexample: the final verification of the direct-payments scenario
rejects a refetched account whose payment_count is 5 and accepts one whose
payment_count is 7, so the accepted payment_count is not unchanged at 5. -/
theorem C1_counterexample :
    direct_payments_final_check ⟨[], [], "premium_content", 5, 5000000000, true, 1000⟩ = false
    ∧ direct_payments_final_check ⟨[], [], "premium_content", 7, 5000000000, true, 1000⟩
        = true := by
  constructor
  · decide
  · decide

/-- C1 amended: after the five escrowed payments and the two direct payments
the harness accepts exactly payment_count = 7 on the refetched account (so
direct payments are counted into payment_count by its final check, and
total_amount is not checked there); the per-direct-payment check succeeds
exactly when the absolute seller-balance delta lies in the 10000-lamport
band around 1 SOL and the escrow balance is exactly unchanged. -/
theorem C1_direct_payment_checks :
    (∀ acct : EscrowAccount, direct_payments_final_check acct = true ↔ acct.payment_count = 7)
    ∧ (∀ pre post : Balance,
        direct_payment_check pre post LAMPORTS_PER_SOL = true ↔
          (LAMPORTS_PER_SOL - 10000 ≤ ((post.seller : Int) - (pre.seller : Int)).natAbs
            ∧ ((post.seller : Int) - (pre.seller : Int)).natAbs ≤ LAMPORTS_PER_SOL + 10000
            ∧ post.escrow = pre.escrow)) := by
  constructor
  · intro acct
    simp only [direct_payments_final_check, beq_iff_eq]
  · intro pre post
    simp only [direct_payment_check, LAMPORTS_PER_SOL, Bool.or_eq_true, decide_eq_true_eq,
      bne_iff_ne, ne_eq, gt_iff_lt]
    split <;> split <;> simp_all <;> omega

/-- C8: the derived escrow account address (and bump byte) is a pure
function of the buyer address, the seller address, the program id and the
subscription id: two contexts agreeing on those, whatever their RPC client
handles or signing secrets, derive the identical pair. -/
theorem C8_pda_deterministic :
    ∀ (ctx1 ctx2 : TestContext) (subscription_id : String),
      ctx1.buyer.pubkey = ctx2.buyer.pubkey →
      ctx1.seller.pubkey = ctx2.seller.pubkey →
      ctx1.program_id = ctx2.program_id →
      find_subscription_pda ctx1 subscription_id = find_subscription_pda ctx2 subscription_id := by
  intro ctx1 ctx2 subscription_id hb hs hp
  unfold find_subscription_pda
  rw [hb, hs, hp]

/-- C8 witness: two contexts with the same key material but different client
handles and signing secrets derive the same address for "premium_content". -/
theorem C8_pda_deterministic_witness :
    find_subscription_pda ⟨0, [7], ⟨[1], 11⟩, ⟨[2], 12⟩⟩ "premium_content" =
      find_subscription_pda ⟨99, [7], ⟨[1], 13⟩, ⟨[2], 14⟩⟩ "premium_content" :=
  C8_pda_deterministic _ _ _ rfl rfl rfl

/-! ## Lemmas on the funding control flow -/

/-- A poll that both confirms the transaction and observes a balance at
least the requested amount. -/
def goodPoll (env : AirdropEnv) (amount a p : Nat) : Prop :=
  env.confirmResp a p = .ok true ∧ ∃ b, env.balanceResp a p = .ok b ∧ amount ≤ b

/-- The environment answers every confirmation poll and balance read without
a transport error. -/
def noTransportErr (env : AirdropEnv) : Prop :=
  ∀ a p, (∃ c, env.confirmResp a p = .ok c) ∧ (∃ n, env.balanceResp a p = .ok n)

theorem exists_shift_succ (Q : Nat → Prop) (p n : Nat) (hq : ¬ Q p) :
    (∃ i, i < n ∧ Q (p + 1 + i)) ↔ (∃ i, i < n + 1 ∧ Q (p + i)) := by
  constructor
  · rintro ⟨i, hi, h⟩
    refine ⟨i + 1, by omega, ?_⟩
    have e : p + (i + 1) = p + 1 + i := by omega
    rw [e]; exact h
  · rintro ⟨i, hi, h⟩
    cases i with
    | zero => exact absurd h hq
    | succ j =>
      refine ⟨j, by omega, ?_⟩
      have e : p + 1 + j = p + (j + 1) := by omega
      rw [e]; exact h

theorem pollLoop_ok_iff (env : AirdropEnv) (amount a : Nat)
    (hno : noTransportErr env) :
    ∀ fuel p, (pollLoop env amount a fuel p).1 = .ok true ↔
      ∃ i, i < fuel ∧ goodPoll env amount a (p + i) := by
  intro fuel
  induction fuel with
  | zero => intro p; simp [pollLoop]
  | succ f ih =>
    intro p
    obtain ⟨⟨c, hc⟩, ⟨n, hn⟩⟩ := hno a p
    cases c with
    | true =>
      by_cases hle : amount ≤ n
      · simp only [pollLoop, hc, hn, if_pos hle]
        constructor
        · intro _; exact ⟨0, by omega, hc, n, hn, hle⟩
        · intro _; trivial
      · have hng : ¬ goodPoll env amount a p := by
          rintro ⟨_, b, hb, hab⟩
          rw [hn] at hb; cases hb; exact hle hab
        simp only [pollLoop, hc, hn, if_neg hle]
        rw [ih (p + 1)]
        exact exists_shift_succ _ p f hng
    | false =>
      have hng : ¬ goodPoll env amount a p := by
        rintro ⟨h1, _⟩; rw [hc] at h1; cases h1
      simp only [pollLoop, hc]
      rw [ih (p + 1)]
      exact exists_shift_succ _ p f hng

theorem pollLoop_ok_implies (env : AirdropEnv) (amount a : Nat) :
    ∀ fuel p, (pollLoop env amount a fuel p).1 = .ok true →
      ∃ i, i < fuel ∧ goodPoll env amount a (p + i) := by
  intro fuel
  induction fuel with
  | zero => intro p h; simp [pollLoop] at h
  | succ f ih =>
    intro p h
    rcases hc : env.confirmResp a p with e | c
    · simp [pollLoop, hc] at h
    · cases c with
      | true =>
        rcases hn : env.balanceResp a p with e | n
        · simp [pollLoop, hc, hn] at h
        · by_cases hle : amount ≤ n
          · exact ⟨0, by omega, hc, n, hn, hle⟩
          · simp only [pollLoop, hc, hn, if_neg hle] at h
            obtain ⟨i, hi, hg⟩ := ih (p + 1) h
            refine ⟨i + 1, by omega, ?_⟩
            have e : p + (i + 1) = p + 1 + i := by omega
            rw [e]; exact hg
      | false =>
        simp only [pollLoop, hc] at h
        obtain ⟨i, hi, hg⟩ := ih (p + 1) h
        refine ⟨i + 1, by omega, ?_⟩
        have e : p + (i + 1) = p + 1 + i := by omega
        rw [e]; exact hg

theorem pollLoop_no_error (env : AirdropEnv) (amount a : Nat)
    (hno : noTransportErr env) :
    ∀ fuel p, ∃ r, (pollLoop env amount a fuel p).1 = .ok r := by
  intro fuel
  induction fuel with
  | zero => intro p; exact ⟨false, rfl⟩
  | succ f ih =>
    intro p
    obtain ⟨⟨c, hc⟩, ⟨n, hn⟩⟩ := hno a p
    cases c with
    | true =>
      by_cases hle : amount ≤ n
      · exact ⟨true, by simp only [pollLoop, hc, hn, if_pos hle]⟩
      · obtain ⟨r, hr⟩ := ih (p + 1)
        exact ⟨r, by simp only [pollLoop, hc, hn, if_neg hle]; exact hr⟩
    | false =>
      obtain ⟨r, hr⟩ := ih (p + 1)
      exact ⟨r, by simp only [pollLoop, hc]; exact hr⟩

theorem pollLoop_trace_mem (env : AirdropEnv) (amount a : Nat) :
    ∀ fuel p ev, ev ∈ (pollLoop env amount a fuel p).2 →
      (∃ q, (ev = .poll a q ∨ ev = .balRead a q)) ∨ ev = .sleepMs 500 := by
  intro fuel
  induction fuel with
  | zero => intro p ev h; simp [pollLoop] at h
  | succ f ih =>
    intro p ev h
    rcases hc : env.confirmResp a p with e | c
    · simp [pollLoop, hc] at h
      exact Or.inl ⟨p, Or.inl h⟩
    · cases c with
      | true =>
        rcases hn : env.balanceResp a p with e | n
        · simp [pollLoop, hc, hn] at h
          rcases h with h | h
          · exact Or.inl ⟨p, Or.inl h⟩
          · exact Or.inl ⟨p, Or.inr h⟩
        · by_cases hle : amount ≤ n
          · simp [pollLoop, hc, hn, if_pos hle] at h
            rcases h with h | h
            · exact Or.inl ⟨p, Or.inl h⟩
            · exact Or.inl ⟨p, Or.inr h⟩
          · simp only [pollLoop, hc, hn, if_neg hle, List.mem_cons] at h
            rcases h with h | h | h | h
            · exact Or.inl ⟨p, Or.inl h⟩
            · exact Or.inl ⟨p, Or.inr h⟩
            · exact Or.inr h
            · exact ih (p + 1) ev h
      | false =>
        simp only [pollLoop, hc, List.mem_cons] at h
        rcases h with h | h | h
        · exact Or.inl ⟨p, Or.inl h⟩
        · exact Or.inr h
        · exact ih (p + 1) ev h

theorem pollLoop_poll_count_le (env : AirdropEnv) (amount a : Nat) :
    ∀ fuel p x, ((pollLoop env amount a fuel p).2.countP (Ev.isPollOf x)) ≤ fuel := by
  intro fuel
  induction fuel with
  | zero => intro p x; simp [pollLoop]
  | succ f ih =>
    intro p x
    rcases hc : env.confirmResp a p with e | c
    · simp [pollLoop, hc, List.countP_cons, Ev.isPollOf]
      split_ifs <;> omega
    · cases c with
      | true =>
        rcases hn : env.balanceResp a p with e | n
        · simp [pollLoop, hc, hn, List.countP_cons, Ev.isPollOf]
          split_ifs <;> omega
        · by_cases hle : amount ≤ n
          · simp [pollLoop, hc, hn, if_pos hle, List.countP_cons, Ev.isPollOf]
            split_ifs <;> omega
          · have := ih (p + 1) x
            simp [pollLoop, hc, hn, if_neg hle, List.countP_cons, Ev.isPollOf]
            split_ifs <;> omega
      | false =>
        have := ih (p + 1) x
        simp [pollLoop, hc, List.countP_cons, Ev.isPollOf]
        split_ifs <;> omega

theorem pollLoop_no_req (env : AirdropEnv) (amount a fuel p : Nat) :
    ((pollLoop env amount a fuel p).2.countP Ev.isReq) = 0 := by
  rw [List.countP_eq_zero]
  intro ev hev
  rcases pollLoop_trace_mem env amount a fuel p ev hev with ⟨q, h | h⟩ | h <;>
    subst h <;> simp [Ev.isReq]

theorem pollLoop_poll_other (env : AirdropEnv) (amount a fuel p x : Nat) (hx : x ≠ a) :
    ((pollLoop env amount a fuel p).2.countP (Ev.isPollOf x)) = 0 := by
  rw [List.countP_eq_zero]
  intro ev hev
  rcases pollLoop_trace_mem env amount a fuel p ev hev with ⟨q, h | h⟩ | h
  · subst h
    simp [Ev.isPollOf]
    exact fun hax => hx hax.symm
  · subst h; simp [Ev.isPollOf]
  · subst h; simp [Ev.isPollOf]

theorem pollLoop_sleep_500 (env : AirdropEnv) (amount a fuel p : Nat) :
    ∀ m, Ev.sleepMs m ∈ (pollLoop env amount a fuel p).2 → m = 500 := by
  intro m hm
  rcases pollLoop_trace_mem env amount a fuel p _ hm with ⟨q, h | h⟩ | h
  · cases h
  · cases h
  · cases h; rfl

theorem pollLoop_no_sleep1000 (env : AirdropEnv) (amount a fuel p : Nat) :
    ((pollLoop env amount a fuel p).2.countP (fun ev => ev == Ev.sleepMs 1000)) = 0 := by
  rw [List.countP_eq_zero]
  intro ev hev
  rcases pollLoop_trace_mem env amount a fuel p ev hev with ⟨q, h | h⟩ | h <;>
    subst h <;> simp

theorem pollLoop_exhaust_counts (env : AirdropEnv) (amount a : Nat)
    (hno : noTransportErr env) :
    ∀ fuel p, (pollLoop env amount a fuel p).1 = .ok false →
      ((pollLoop env amount a fuel p).2.countP (Ev.isPollOf a)) = fuel ∧
      ((pollLoop env amount a fuel p).2.countP (fun ev => ev == Ev.sleepMs 500)) = fuel := by
  intro fuel
  induction fuel with
  | zero => intro p _; simp [pollLoop]
  | succ f ih =>
    intro p h
    obtain ⟨⟨c, hc⟩, ⟨n, hn⟩⟩ := hno a p
    cases c with
    | true =>
      by_cases hle : amount ≤ n
      · simp only [pollLoop, hc, hn, if_pos hle] at h
        cases h
      · simp only [pollLoop, hc, hn, if_neg hle] at h ⊢
        obtain ⟨h1, h2⟩ := ih (p + 1) h
        simp [List.countP_cons, Ev.isPollOf, h1, h2]
    | false =>
      simp only [pollLoop, hc] at h ⊢
      obtain ⟨h1, h2⟩ := ih (p + 1) h
      simp [List.countP_cons, Ev.isPollOf, h1, h2]

/-- One attempt reaches the confirmed-and-funded state: the airdrop request
is accepted and some poll among the 32 confirms with sufficient balance. -/
def attemptGood (env : AirdropEnv) (amount a : Nat) : Prop :=
  env.airdropAccept a = true ∧ ∃ p, p < 32 ∧ goodPoll env amount a p

theorem attemptLoop_ok_iff (env : AirdropEnv) (amount : Nat)
    (hno : noTransportErr env) :
    ∀ fuel a, (attemptLoop env amount fuel a).1 = .ok () ↔
      ∃ i, i < fuel ∧ attemptGood env amount (a + i) := by
  intro fuel
  induction fuel with
  | zero => intro a; simp [attemptLoop]
  | succ f ih =>
    intro a
    by_cases hacc : env.airdropAccept a = true
    · rcases hre : (pollLoop env amount a 32 0).1 with e | b
      · obtain ⟨r, hr⟩ := pollLoop_no_error env amount a hno 32 0
        rw [hre] at hr; cases hr
      · cases b with
        | true =>
          have hg : attemptGood env amount a := by
            refine ⟨hacc, ?_⟩
            obtain ⟨i, hi, hgi⟩ := (pollLoop_ok_iff env amount a hno 32 0).1 hre
            exact ⟨i, hi, by simpa using hgi⟩
          simp only [attemptLoop, hacc, if_true]
          rcases hp : pollLoop env amount a 32 0 with ⟨r, t⟩
          rw [hp] at hre; simp at hre; subst hre
          simp only []
          constructor
          · intro _; exact ⟨0, by omega, hg⟩
          · intro _; trivial
        | false =>
          have hng : ¬ attemptGood env amount a := by
            rintro ⟨_, pp, hpp, hgp⟩
            have : (pollLoop env amount a 32 0).1 = .ok true :=
              (pollLoop_ok_iff env amount a hno 32 0).2 ⟨pp, hpp, by simpa using hgp⟩
            rw [hre] at this; cases this
          simp only [attemptLoop, hacc, if_true]
          rcases hp : pollLoop env amount a 32 0 with ⟨r, t⟩
          rw [hp] at hre; simp at hre; subst hre
          simp only []
          rw [ih (a + 1)]
          exact exists_shift_succ _ a f hng
    · have hng : ¬ attemptGood env amount a := fun hg => hacc hg.1
      have ha : env.airdropAccept a = false := by
        revert hacc; cases env.airdropAccept a <;> simp
      have hred : (attemptLoop env amount (f + 1) a).1 = (attemptLoop env amount f (a + 1)).1 := by
        simp [attemptLoop, ha]
      rw [hred, ih (a + 1)]
      exact exists_shift_succ _ a f hng

theorem attemptLoop_ok_implies (env : AirdropEnv) (amount : Nat) :
    ∀ fuel a, (attemptLoop env amount fuel a).1 = .ok () →
      ∃ i, i < fuel ∧ attemptGood env amount (a + i) := by
  intro fuel
  induction fuel with
  | zero => intro a h; simp [attemptLoop] at h
  | succ f ih =>
    intro a h
    by_cases hacc : env.airdropAccept a = true
    · rcases hp : pollLoop env amount a 32 0 with ⟨r, t⟩
      simp only [attemptLoop, hacc, if_true, hp] at h
      rcases r with e | b
      · cases h
      · cases b with
        | true =>
          refine ⟨0, by omega, hacc, ?_⟩
          have : (pollLoop env amount a 32 0).1 = .ok true := by rw [hp]
          obtain ⟨i, hi, hgi⟩ := pollLoop_ok_implies env amount a 32 0 this
          exact ⟨i, hi, by simpa using hgi⟩
        | false =>
          simp only [] at h
          obtain ⟨i, hi, hg⟩ := ih (a + 1) h
          refine ⟨i + 1, by omega, ?_⟩
          have e : a + (i + 1) = a + 1 + i := by omega
          rw [e]; exact hg
    · simp only [attemptLoop, hacc, if_false] at h
      obtain ⟨i, hi, hg⟩ := ih (a + 1) h
      refine ⟨i + 1, by omega, ?_⟩
      have e : a + (i + 1) = a + 1 + i := by omega
      rw [e]; exact hg

theorem attemptLoop_no_err_result (env : AirdropEnv) (amount : Nat)
    (hno : noTransportErr env) :
    ∀ fuel a, (attemptLoop env amount fuel a).1 = .ok ()
      ∨ (attemptLoop env amount fuel a).1 =
          .error "Failed to complete airdrop after multiple attempts" := by
  intro fuel
  induction fuel with
  | zero => intro a; exact Or.inr rfl
  | succ f ih =>
    intro a
    by_cases hacc : env.airdropAccept a = true
    · rcases hre : (pollLoop env amount a 32 0).1 with e | b
      · obtain ⟨r, hr⟩ := pollLoop_no_error env amount a hno 32 0
        rw [hre] at hr; cases hr
      · rcases hp : pollLoop env amount a 32 0 with ⟨r, t⟩
        rw [hp] at hre; simp at hre; subst hre
        cases b with
        | true => exact Or.inl (by simp only [attemptLoop, hacc, if_true, hp])
        | false =>
          rcases ih (a + 1) with h | h
          · exact Or.inl (by simp only [attemptLoop, hacc, if_true, hp]; exact h)
          · exact Or.inr (by simp only [attemptLoop, hacc, if_true, hp]; exact h)
    · rcases ih (a + 1) with h | h
      · exact Or.inl (by simp only [attemptLoop, hacc, if_false]; exact h)
      · exact Or.inr (by simp only [attemptLoop, hacc, if_false]; exact h)

theorem attemptLoop_succ_accept_err (env : AirdropEnv) (amount f a : Nat) (e : String)
    (t : List Ev) (hacc : env.airdropAccept a = true)
    (hp : pollLoop env amount a 32 0 = (.error e, t)) :
    attemptLoop env amount (f + 1) a = (.error e, .req a :: t) := by
  simp [attemptLoop, hacc, hp]

theorem attemptLoop_succ_accept_true (env : AirdropEnv) (amount f a : Nat)
    (t : List Ev) (hacc : env.airdropAccept a = true)
    (hp : pollLoop env amount a 32 0 = (.ok true, t)) :
    attemptLoop env amount (f + 1) a = (.ok (), .req a :: t) := by
  simp [attemptLoop, hacc, hp]

theorem attemptLoop_succ_accept_false (env : AirdropEnv) (amount f a : Nat)
    (t : List Ev) (hacc : env.airdropAccept a = true)
    (hp : pollLoop env amount a 32 0 = (.ok false, t)) :
    attemptLoop env amount (f + 1) a =
      ((attemptLoop env amount f (a + 1)).1,
        .req a :: (t ++ .sleepMs 1000 :: (attemptLoop env amount f (a + 1)).2)) := by
  simp [attemptLoop, hacc, hp]

theorem attemptLoop_succ_reject (env : AirdropEnv) (amount f a : Nat)
    (hacc : env.airdropAccept a = false) :
    attemptLoop env amount (f + 1) a =
      ((attemptLoop env amount f (a + 1)).1,
        .req a :: .sleepMs 1000 :: (attemptLoop env amount f (a + 1)).2) := by
  simp [attemptLoop, hacc]

theorem attemptLoop_req_le (env : AirdropEnv) (amount : Nat) :
    ∀ fuel a, ((attemptLoop env amount fuel a).2.countP Ev.isReq) ≤ fuel := by
  intro fuel
  induction fuel with
  | zero => intro a; simp [attemptLoop]
  | succ f ih =>
    intro a
    rcases hacc : env.airdropAccept a with _ | _
    · rw [attemptLoop_succ_reject env amount f a hacc]
      have := ih (a + 1)
      simp [List.countP_cons, Ev.isReq]
      omega
    · rcases hp : pollLoop env amount a 32 0 with ⟨r, t⟩
      have ht : t.countP Ev.isReq = 0 := by
        have := pollLoop_no_req env amount a 32 0
        rw [hp] at this; exact this
      rcases r with e | b
      · rw [attemptLoop_succ_accept_err env amount f a e t hacc hp]
        simp [List.countP_cons, Ev.isReq, ht]
      · cases b with
        | true =>
          rw [attemptLoop_succ_accept_true env amount f a t hacc hp]
          simp [List.countP_cons, Ev.isReq, ht]
        | false =>
          rw [attemptLoop_succ_accept_false env amount f a t hacc hp]
          have := ih (a + 1)
          simp [List.countP_cons, List.countP_append, Ev.isReq, ht]
          omega

theorem attemptLoop_poll_lt_zero (env : AirdropEnv) (amount : Nat) :
    ∀ fuel a x, x < a → ((attemptLoop env amount fuel a).2.countP (Ev.isPollOf x)) = 0 := by
  intro fuel
  induction fuel with
  | zero => intro a x _; simp [attemptLoop]
  | succ f ih =>
    intro a x hx
    have hxa : x ≠ a := by omega
    rcases hacc : env.airdropAccept a with _ | _
    · rw [attemptLoop_succ_reject env amount f a hacc]
      have := ih (a + 1) x (by omega)
      simp [List.countP_cons, Ev.isPollOf, this] <;> omega
    · rcases hp : pollLoop env amount a 32 0 with ⟨r, t⟩
      have ht : t.countP (Ev.isPollOf x) = 0 := by
        have := pollLoop_poll_other env amount a 32 0 x hxa
        rw [hp] at this; exact this
      rcases r with e | b
      · rw [attemptLoop_succ_accept_err env amount f a e t hacc hp]
        simp [List.countP_cons, Ev.isPollOf, ht] <;> omega
      · cases b with
        | true =>
          rw [attemptLoop_succ_accept_true env amount f a t hacc hp]
          simp [List.countP_cons, Ev.isPollOf, ht] <;> omega
        | false =>
          rw [attemptLoop_succ_accept_false env amount f a t hacc hp]
          have := ih (a + 1) x (by omega)
          simp [List.countP_cons, List.countP_append, Ev.isPollOf, ht, this] <;> omega

theorem attemptLoop_polls_le (env : AirdropEnv) (amount : Nat) :
    ∀ fuel a x, ((attemptLoop env amount fuel a).2.countP (Ev.isPollOf x)) ≤ 32 := by
  intro fuel
  induction fuel with
  | zero => intro a x; simp [attemptLoop]
  | succ f ih =>
    intro a x
    rcases hacc : env.airdropAccept a with _ | _
    · rw [attemptLoop_succ_reject env amount f a hacc]
      have := ih (a + 1) x
      simp [List.countP_cons, Ev.isPollOf] <;> omega
    · rcases hp : pollLoop env amount a 32 0 with ⟨r, t⟩
      by_cases hxa : x = a
      · subst hxa
        have ht : t.countP (Ev.isPollOf x) ≤ 32 := by
          have := pollLoop_poll_count_le env amount x 32 0 x
          rw [hp] at this; exact this
        rcases r with e | b
        · rw [attemptLoop_succ_accept_err env amount f x e t hacc hp]
          simp [List.countP_cons, Ev.isPollOf] <;> omega
        · cases b with
          | true =>
            rw [attemptLoop_succ_accept_true env amount f x t hacc hp]
            simp [List.countP_cons, Ev.isPollOf] <;> omega
          | false =>
            rw [attemptLoop_succ_accept_false env amount f x t hacc hp]
            have hrest := attemptLoop_poll_lt_zero env amount f (x + 1) x (by omega)
            simp [List.countP_cons, List.countP_append, Ev.isPollOf, hrest] <;> omega
      · have ht : t.countP (Ev.isPollOf x) = 0 := by
          have := pollLoop_poll_other env amount a 32 0 x hxa
          rw [hp] at this; exact this
        rcases r with e | b
        · rw [attemptLoop_succ_accept_err env amount f a e t hacc hp]
          simp [List.countP_cons, Ev.isPollOf, ht] <;> omega
        · cases b with
          | true =>
            rw [attemptLoop_succ_accept_true env amount f a t hacc hp]
            simp [List.countP_cons, Ev.isPollOf, ht] <;> omega
          | false =>
            rw [attemptLoop_succ_accept_false env amount f a t hacc hp]
            have := ih (a + 1) x
            simp [List.countP_cons, List.countP_append, Ev.isPollOf, ht] <;> omega

theorem attemptLoop_sleep_vals (env : AirdropEnv) (amount : Nat) :
    ∀ fuel a m, Ev.sleepMs m ∈ (attemptLoop env amount fuel a).2 → m = 500 ∨ m = 1000 := by
  intro fuel
  induction fuel with
  | zero => intro a m h; simp [attemptLoop] at h
  | succ f ih =>
    intro a m h
    rcases hacc : env.airdropAccept a with _ | _
    · rw [attemptLoop_succ_reject env amount f a hacc] at h
      simp only [List.mem_cons] at h
      rcases h with h | h | h
      · cases h
      · cases h; exact Or.inr rfl
      · exact ih (a + 1) m h
    · rcases hp : pollLoop env amount a 32 0 with ⟨r, t⟩
      have htm : Ev.sleepMs m ∈ t → m = 500 := by
        intro hmt
        have := pollLoop_sleep_500 env amount a 32 0 m
        rw [hp] at this; exact this hmt
      rcases r with e | b
      · rw [attemptLoop_succ_accept_err env amount f a e t hacc hp] at h
        simp only [List.mem_cons] at h
        rcases h with h | h
        · cases h
        · exact Or.inl (htm h)
      · cases b with
        | true =>
          rw [attemptLoop_succ_accept_true env amount f a t hacc hp] at h
          simp only [List.mem_cons] at h
          rcases h with h | h
          · cases h
          · exact Or.inl (htm h)
        | false =>
          rw [attemptLoop_succ_accept_false env amount f a t hacc hp] at h
          rcases List.mem_cons.1 h with h | h
          · cases h
          · rcases List.mem_append.1 h with h | h
            · exact Or.inl (htm h)
            · rcases List.mem_cons.1 h with h | h
              · cases h; exact Or.inr rfl
              · exact ih (a + 1) m h

theorem attemptLoop_fail_counts (env : AirdropEnv) (amount : Nat)
    (hno : noTransportErr env) :
    ∀ fuel a, (attemptLoop env amount fuel a).1 ≠ .ok () →
      ((attemptLoop env amount fuel a).2.countP Ev.isReq) = fuel ∧
      ((attemptLoop env amount fuel a).2.countP (fun ev => ev == Ev.sleepMs 1000)) = fuel := by
  intro fuel
  induction fuel with
  | zero => intro a _; simp [attemptLoop]
  | succ f ih =>
    intro a h
    rcases hacc : env.airdropAccept a with _ | _
    · rw [attemptLoop_succ_reject env amount f a hacc] at h ⊢
      obtain ⟨h1, h2⟩ := ih (a + 1) h
      simp [List.countP_cons, Ev.isReq, h1, h2]
    · rcases hre : (pollLoop env amount a 32 0).1 with e | b
      · obtain ⟨r, hr⟩ := pollLoop_no_error env amount a hno 32 0
        rw [hre] at hr; cases hr
      · rcases hp : pollLoop env amount a 32 0 with ⟨r, t⟩
        rw [hp] at hre; simp at hre; subst hre
        cases b with
        | true =>
          rw [attemptLoop_succ_accept_true env amount f a t hacc hp] at h
          simp at h
        | false =>
          rw [attemptLoop_succ_accept_false env amount f a t hacc hp] at h ⊢
          simp only [] at h
          obtain ⟨h1, h2⟩ := ih (a + 1) h
          have htr : t.countP Ev.isReq = 0 := by
            have := pollLoop_no_req env amount a 32 0
            rw [hp] at this; exact this
          have hts : t.countP (fun ev => ev == Ev.sleepMs 1000) = 0 := by
            have := pollLoop_no_sleep1000 env amount a 32 0
            rw [hp] at this; exact this
          simp [List.countP_cons, List.countP_append, Ev.isReq, h1, h2, htr, hts]

/-- C3: the funding operation issues at most 3 airdrop requests, polls each
accepted attempt at most 32 times, sleeps only in 500 ms (between polls) and
1000 ms (between attempts) intervals, succeeds only if some attempt among
the 3 is accepted and some poll among its 32 both confirms the transaction
and observes a balance at least the requested amount; absent transport
errors on the confirmation and balance reads it succeeds exactly in that
case, and otherwise fails with the fatal exhaustion error after all 3
requests and all 3 one-second backoffs. -/
theorem C3_airdrop_retry_policy :
    ∀ (env : AirdropEnv) (amount : Nat),
      ((request_airdrop_with_confirmation env amount).2.countP Ev.isReq ≤ 3)
      ∧ (∀ x, (request_airdrop_with_confirmation env amount).2.countP (Ev.isPollOf x) ≤ 32)
      ∧ (∀ m, Ev.sleepMs m ∈ (request_airdrop_with_confirmation env amount).2 →
          m = 500 ∨ m = 1000)
      ∧ ((request_airdrop_with_confirmation env amount).1 = .ok () →
          ∃ a, a < 3 ∧ env.airdropAccept a = true ∧ ∃ p, p < 32 ∧ goodPoll env amount a p)
      ∧ (noTransportErr env →
          ((request_airdrop_with_confirmation env amount).1 = .ok () ↔
            ∃ a, a < 3 ∧ env.airdropAccept a = true ∧ ∃ p, p < 32 ∧ goodPoll env amount a p))
      ∧ (noTransportErr env → (request_airdrop_with_confirmation env amount).1 ≠ .ok () →
          (request_airdrop_with_confirmation env amount).1 =
              .error "Failed to complete airdrop after multiple attempts"
            ∧ (request_airdrop_with_confirmation env amount).2.countP Ev.isReq = 3
            ∧ (request_airdrop_with_confirmation env amount).2.countP
                (fun ev => ev == Ev.sleepMs 1000) = 3) := by
  intro env amount
  refine ⟨attemptLoop_req_le env amount 3 0,
    fun x => attemptLoop_polls_le env amount 3 0 x,
    fun m hm => attemptLoop_sleep_vals env amount 3 0 m hm, ?_, ?_, ?_⟩
  · intro h
    obtain ⟨i, hi, hg⟩ := attemptLoop_ok_implies env amount 3 0 h
    have hg2 : attemptGood env amount i := by simpa using hg
    exact ⟨i, hi, hg2.1, hg2.2⟩
  · intro hno
    rw [show request_airdrop_with_confirmation env amount = attemptLoop env amount 3 0 from rfl,
      attemptLoop_ok_iff env amount hno 3 0]
    constructor
    · rintro ⟨i, hi, hg⟩
      have hg2 : attemptGood env amount i := by simpa using hg
      exact ⟨i, hi, hg2.1, hg2.2⟩
    · rintro ⟨a, ha, h1, h2⟩
      exact ⟨a, ha, by simpa [attemptGood] using And.intro h1 h2⟩
  · intro hno hne
    rcases attemptLoop_no_err_result env amount hno 3 0 with h | h
    · exact absurd h hne
    · obtain ⟨h1, h2⟩ := attemptLoop_fail_counts env amount hno 3 0 hne
      exact ⟨h, h1, h2⟩

/-- An environment whose remote accepts every airdrop request, confirms at
the first poll and reports a balance of 10 SOL. -/
def fundedEnv : AirdropEnv :=
  ⟨fun _ => true, fun _ _ => .ok true, fun _ _ => .ok BUYER_INITIAL_BALANCE⟩

/-- C3 witness: in the immediately-successful environment the funding run
returns success, and the theorem instantiated there yields the successful
attempt and poll. -/
theorem C3_airdrop_retry_policy_witness :
    ∃ a, a < 3 ∧ fundedEnv.airdropAccept a = true ∧
      ∃ p, p < 32 ∧ goodPoll fundedEnv SELLER_INITIAL_BALANCE a p :=
  ((C3_airdrop_retry_policy fundedEnv SELLER_INITIAL_BALANCE).2.2.2.1) rfl

/-- C9: setup succeeds only if the two final observed balances are present
and both at least 1 SOL; even when both airdrops succeed, a pair of final
balances with either below 1 SOL makes setup return the fatal funding
error. -/
theorem C9_setup_requires_one_sol :
    ∀ env : SetupEnv,
      (setup env = .ok () →
        ∃ b s, env.buyerFinalBalance = .ok b ∧ env.sellerFinalBalance = .ok s ∧
          LAMPORTS_PER_SOL ≤ b ∧ LAMPORTS_PER_SOL ≤ s)
      ∧ (∀ b s,
          (request_airdrop_with_confirmation env.buyerAirdrop BUYER_INITIAL_BALANCE).1 = .ok () →
          (request_airdrop_with_confirmation env.sellerAirdrop SELLER_INITIAL_BALANCE).1 = .ok () →
          env.buyerFinalBalance = .ok b → env.sellerFinalBalance = .ok s →
          (b < LAMPORTS_PER_SOL ∨ s < LAMPORTS_PER_SOL) →
          setup env = .error "Failed to fund accounts with sufficient SOL") := by
  intro env
  constructor
  · intro h
    rcases hB : (request_airdrop_with_confirmation env.buyerAirdrop BUYER_INITIAL_BALANCE).1
      with e | u
    · simp only [setup, hB] at h; cases h
    · rcases hS : (request_airdrop_with_confirmation env.sellerAirdrop SELLER_INITIAL_BALANCE).1
        with e | v
      · simp only [setup, hB, hS] at h; cases h
      · rcases hbf : env.buyerFinalBalance with e | b
        · simp only [setup, hB, hS, hbf] at h; cases h
        · rcases hsf : env.sellerFinalBalance with e | s
          · simp only [setup, hB, hS, hbf, hsf] at h; cases h
          · simp only [setup, hB, hS, hbf, hsf] at h
            by_cases hb : b < LAMPORTS_PER_SOL
            · simp [hb] at h
            · by_cases hs : s < LAMPORTS_PER_SOL
              · simp [hb, hs] at h
              · exact ⟨b, s, rfl, rfl, by omega, by omega⟩
  · intro b s hB hS hbf hsf hlt
    simp only [setup, hB, hS, hbf, hsf]
    have hcond : (decide (b < LAMPORTS_PER_SOL) || decide (s < LAMPORTS_PER_SOL)) = true := by
      rcases hlt with h | h <;> simp [h]
    simp [hcond]

/-- The setup environment in which both parties are funded immediately and
the final reads observe 10 SOL and 1 SOL. -/
def fundedSetupEnv : SetupEnv :=
  ⟨fundedEnv, fundedEnv, .ok BUYER_INITIAL_BALANCE, .ok SELLER_INITIAL_BALANCE⟩

/-- C9 witness: in the immediately-funded environment setup succeeds, and
the theorem instantiated there yields the two sufficient balances. -/
theorem C9_setup_requires_one_sol_witness :
    ∃ b s, fundedSetupEnv.buyerFinalBalance = .ok b ∧ fundedSetupEnv.sellerFinalBalance = .ok s ∧
      LAMPORTS_PER_SOL ≤ b ∧ LAMPORTS_PER_SOL ≤ s :=
  (C9_setup_requires_one_sol fundedSetupEnv).1 rfl

end Escrow
